import Mathlib

/-!
Verification of the broadcast transmitter core (BroadcastTransmitter.h).

The transmitter appends typed records to a power-of-two data area of
capacity N followed by a trailer holding three 64-bit counters
(TAIL_INTENT, TAIL, LATEST).  The data area is modelled as a byte map
`Nat → Nat` and the three trailer counters as explicit fields of a state
record.  The body of `transmit` is translated as an ordered list of write
events (`transmitEvents`) folded over the state, so that the order of the
counter stores is preserved and properties can be checked after every
individual store.  A ghost log (`transmitRecords`) records, for each call,
the records the call writes (padding record first when the message wraps).

The helper headers RecordDescriptor.h, BroadcastBufferDescriptor.h and
BitUtil.h are not part of the sources at hand; the constants and checks
they provide are modelled from the specification and marked as such.
-/

/-- Record header length in bytes (length field plus type field). -/
def HEADER_LENGTH : Nat := 8

/-- Alignment of record start offsets, in bytes. -/
def RECORD_ALIGNMENT : Nat := 8

/-- Reserved message type id marking a padding record. -/
def PADDING_MSG_TYPE_ID : Int := -1

/-- Offset of the 32-bit length field of a record starting at `o`. -/
def lengthOffset (o : Nat) : Nat := o

/-- Offset of the 32-bit type field of a record starting at `o`. -/
def typeOffset (o : Nat) : Nat := o + 4

/-- Offset of the payload of a record starting at `o`. -/
def msgOffset (o : Nat) : Nat := o + HEADER_LENGTH

/-- Modelled from the spec: RecordDescriptor::calculateMaxMessageLength,
the maximum message length is one eighth of the data-area capacity. -/
def calculateMaxMessageLength (capacity : Nat) : Nat := capacity / 8

/-- Modelled from the spec: util::BitUtil::align rounds `value` up to the
next multiple of `alignment`; the mask form used by the source,
(value + alignment - 1) AND NOT (alignment - 1), agrees with this
division form for the power-of-two alignments in use here. -/
def align (value alignment : Nat) : Nat :=
  (value + alignment - 1) / alignment * alignment

/-- Modelled from the spec: executable power-of-two test used by the
capacity check, in the usual bit-trick form of BitUtil (BitUtil.h is not
among the sources at hand). -/
def isPowerOfTwo (n : Nat) : Bool := n != 0 && (n &&& (n - 1)) == 0

/-- Modelled from the spec: BroadcastBufferDescriptor::TRAILER_LENGTH,
the fixed size of the counter trailer after the data area (the spec
names 128 as the canonical value; no claim depends on the exact value). -/
def TRAILER_LENGTH : Nat := 128

/-- Modelled from the spec: the defined minimum data-area capacity (the
spec names 64 bytes as the example minimum). -/
def MIN_CAPACITY : Nat := 64

/-- Modelled from the spec: BroadcastBufferDescriptor::checkCapacity
accepts a capacity exactly when it is a power of two and at least the
defined minimum. -/
def checkCapacity (capacity : Nat) : Bool :=
  isPowerOfTwo capacity && decide (MIN_CAPACITY ≤ capacity)

/-- Modelled from the spec: RecordDescriptor::checkMsgTypeId fails with
InvalidArgument when the id is below 1 and is not PADDING_MSG_TYPE_ID;
`true` means the check passes. -/
def checkMsgTypeId (msgTypeId : Int) : Bool :=
  decide (1 ≤ msgTypeId) || decide (msgTypeId = PADDING_MSG_TYPE_ID)

/-- Byte `k` (little endian) of the 32-bit two-complement encoding of `v`. -/
def int32Byte (v : Int) (k : Nat) : Nat := ((v % (2 ^ 32)).toNat >>> (8 * k)) % 256

/-- AtomicBuffer::putInt32: store the four little-endian bytes of `v` at `i`. -/
def putInt32 (mem : Nat → Nat) (i : Nat) (v : Int) : Nat → Nat := fun j =>
  if j = i then int32Byte v 0
  else if j = i + 1 then int32Byte v 1
  else if j = i + 2 then int32Byte v 2
  else if j = i + 3 then int32Byte v 3
  else mem j

/-- AtomicBuffer::putBytes: copy `bytes` into the buffer starting at `i`. -/
def putBytes (mem : Nat → Nat) (i : Nat) (bytes : List Nat) : Nat → Nat := fun j =>
  if i ≤ j ∧ j < i + bytes.length then bytes.getD (j - i) 0 else mem j

/-- AtomicBuffer::getInt32: decode the signed 32-bit little-endian value at `i`. -/
def getInt32 (mem : Nat → Nat) (i : Nat) : Int :=
  let u : Nat := mem i + 256 * mem (i + 1) + 65536 * mem (i + 2) + 16777216 * mem (i + 3)
  if u < 2 ^ 31 then (u : Int) else (u : Int) - 2 ^ 32

/-- The shared region as seen by the transmitter: the data-area bytes and
the three trailer counters (64-bit, held at fixed trailer offsets). -/
structure TState where
  mem : Nat → Nat
  tailIntent : Nat
  tail : Nat
  latest : Nat

/-- The cached fields of a BroadcastTransmitter (the three counter buffer
indices are determined by capacity and are represented by the dedicated
counter fields of `TState`). -/
structure BroadcastTransmitter where
  capacity : Nat
  mask : Nat
  maxMsgLength : Nat
deriving DecidableEq

/-- Failure kind of transmitter construction. -/
inductive CapacityError where
  | invalidCapacity
deriving DecidableEq

/-- BroadcastTransmitter constructor: capacity is the buffer length minus
the trailer length; construction fails when checkCapacity rejects it. -/
def mkBroadcastTransmitter (bufferCapacity : Nat) :
    Except CapacityError BroadcastTransmitter :=
  if checkCapacity (bufferCapacity - TRAILER_LENGTH) then
    Except.ok
      { capacity := bufferCapacity - TRAILER_LENGTH
        mask := bufferCapacity - TRAILER_LENGTH - 1
        maxMsgLength := calculateMaxMessageLength (bufferCapacity - TRAILER_LENGTH) }
  else
    Except.error CapacityError.invalidCapacity

/-- recordOffset local of transmit: the in-buffer offset of the tail. -/
def recordOffsetOf (tr : BroadcastTransmitter) (currentTail : Nat) : Nat :=
  currentTail &&& tr.mask

/-- alignedRecordLength local of transmit for a payload of `length` bytes. -/
def alignedLen (length : Nat) : Nat := align (length + HEADER_LENGTH) RECORD_ALIGNMENT

/-- toEndOfBuffer local of transmit. -/
def toEndOf (tr : BroadcastTransmitter) (currentTail : Nat) : Nat :=
  tr.capacity - recordOffsetOf tr currentTail

/-- The condition of the wrap branch of transmit:
toEndOfBuffer < alignedRecordLength. -/
def wrapCase (tr : BroadcastTransmitter) (currentTail length : Nat) : Prop :=
  toEndOf tr currentTail < alignedLen length

instance (tr : BroadcastTransmitter) (t l : Nat) : Decidable (wrapCase tr t l) :=
  inferInstanceAs (Decidable (toEndOf tr t < alignedLen l))

/-- One write performed by transmit, in program order.  The two counter
stores performed with putInt64Ordered and the tail-intent store are kept
distinct from the plain data-area writes. -/
inductive WriteEvent where
  | putInt32E (i : Nat) (v : Int)
  | putBytesE (i : Nat) (bytes : List Nat)
  | storeTailIntent (v : Nat)
  | storeLatest (v : Nat)
  | storeTail (v : Nat)
deriving DecidableEq

/-- Effect of one write event on the region state. -/
def applyEvent (s : TState) : WriteEvent → TState
  | WriteEvent.putInt32E i v => { s with mem := putInt32 s.mem i v }
  | WriteEvent.putBytesE i bytes => { s with mem := putBytes s.mem i bytes }
  | WriteEvent.storeTailIntent v => { s with tailIntent := v }
  | WriteEvent.storeLatest v => { s with latest := v }
  | WriteEvent.storeTail v => { s with tail := v }

/-- The writes of one successful transmit call, in the order the source
performs them.  In the wrap branch the tail intent is newTail +
toEndOfBuffer, the padding record is written at the old record offset,
then currentTail advances by toEndOfBuffer and the record offset becomes
0 for the user record. -/
def transmitEvents (tr : BroadcastTransmitter) (currentTail : Nat) (msgTypeId : Int)
    (payload : List Nat) : List WriteEvent :=
  if wrapCase tr currentTail payload.length then
    [WriteEvent.storeTailIntent
        (currentTail + alignedLen payload.length + toEndOf tr currentTail),
     WriteEvent.putInt32E (lengthOffset (recordOffsetOf tr currentTail))
        ((toEndOf tr currentTail : Nat) : Int),
     WriteEvent.putInt32E (typeOffset (recordOffsetOf tr currentTail)) PADDING_MSG_TYPE_ID,
     WriteEvent.putInt32E (lengthOffset 0) ((payload.length + HEADER_LENGTH : Nat) : Int),
     WriteEvent.putInt32E (typeOffset 0) msgTypeId,
     WriteEvent.putBytesE (msgOffset 0) payload,
     WriteEvent.storeLatest (currentTail + toEndOf tr currentTail),
     WriteEvent.storeTail
        (currentTail + toEndOf tr currentTail + alignedLen payload.length)]
  else
    [WriteEvent.storeTailIntent (currentTail + alignedLen payload.length),
     WriteEvent.putInt32E (lengthOffset (recordOffsetOf tr currentTail))
        ((payload.length + HEADER_LENGTH : Nat) : Int),
     WriteEvent.putInt32E (typeOffset (recordOffsetOf tr currentTail)) msgTypeId,
     WriteEvent.putBytesE (msgOffset (recordOffsetOf tr currentTail)) payload,
     WriteEvent.storeLatest currentTail,
     WriteEvent.storeTail (currentTail + alignedLen payload.length)]

/-- checkMessageLength of the transmitter: passes when the requested
length does not exceed maxMsgLength. -/
def checkMessageLength (tr : BroadcastTransmitter) (length : Nat) : Bool :=
  decide (length ≤ tr.maxMsgLength)

/-- Failure kinds of transmit. -/
inductive TransmitError where
  | invalidArgument
  | messageTooLong
deriving DecidableEq

/-- BroadcastTransmitter::transmit.  The checks run before any write; a
failing call returns its error together with the unchanged region state.
A successful call folds the ordered write events over the state. -/
def transmit (tr : BroadcastTransmitter) (s : TState) (msgTypeId : Int)
    (payload : List Nat) : Option TransmitError × TState :=
  if checkMsgTypeId msgTypeId then
    if checkMessageLength tr payload.length then
      (none, (transmitEvents tr s.tail msgTypeId payload).foldl applyEvent s)
    else
      (some TransmitError.messageTooLong, s)
  else
    (some TransmitError.invalidArgument, s)

/-- Ghost description of one committed record: its absolute start
position, the length value stored in its header, its type field and
whether it is the padding record inserted by the wrap branch. -/
structure RecordInfo where
  position : Nat
  storedLength : Nat
  typeId : Int
  padding : Bool
deriving DecidableEq

/-- The records committed by one successful transmit call, with their
absolute positions, mirroring the two branches of the source. -/
def transmitRecords (tr : BroadcastTransmitter) (currentTail : Nat) (msgTypeId : Int)
    (length : Nat) : List RecordInfo :=
  if wrapCase tr currentTail length then
    [{ position := currentTail
       storedLength := toEndOf tr currentTail
       typeId := PADDING_MSG_TYPE_ID
       padding := true },
     { position := currentTail + toEndOf tr currentTail
       storedLength := length + HEADER_LENGTH
       typeId := msgTypeId
       padding := false }]
  else
    [{ position := currentTail
       storedLength := length + HEADER_LENGTH
       typeId := msgTypeId
       padding := false }]

/-- Run a list of transmit calls; `some` returns, for each call, the
state after the call together with the records the call committed;
`none` when any call fails. -/
def transmitSeq (tr : BroadcastTransmitter) (s : TState) :
    List (Int × List Nat) → Option (List (TState × List RecordInfo))
  | [] => some []
  | c :: cs =>
    match transmit tr s c.1 c.2 with
    | (some _, _) => none
    | (none, s1) =>
      match transmitSeq tr s1 cs with
      | none => none
      | some rest => some ((s1, transmitRecords tr s.tail c.1 c.2.length) :: rest)

/-- The field constraints every successfully constructed transmitter
satisfies. -/
def ValidTransmitter (tr : BroadcastTransmitter) : Prop :=
  (∃ k, tr.capacity = 2 ^ k) ∧ MIN_CAPACITY ≤ tr.capacity ∧
    tr.mask = tr.capacity - 1 ∧ tr.maxMsgLength = tr.capacity / 8

/-- Total stored length of the padding records in a record log. -/
def paddingBytes (records : List RecordInfo) : Nat :=
  ((records.filter fun r => r.padding).map fun r => r.storedLength).sum

/-- Sum of the aligned record lengths of a list of calls. -/
def sumAligned (calls : List (Int × List Nat)) : Nat :=
  (calls.map fun c => alignedLen c.2.length).sum

/-- Event classifier: a store to the TAIL_INTENT counter. -/
def isIntentStore : WriteEvent → Bool
  | WriteEvent.storeTailIntent _ => true
  | _ => false

/-- Event classifier: a store to the TAIL counter. -/
def isTailStore : WriteEvent → Bool
  | WriteEvent.storeTail _ => true
  | _ => false

/-- The tail read after the last call of a sequence (the initial tail
when the sequence is empty). -/
def lastTail (s : TState) (results : List (TState × List RecordInfo)) : Nat :=
  results.foldl (fun _ r => r.1.tail) s.tail

/-- Concrete transmitter over a data area of 1024 bytes. -/
def tr1024 : BroadcastTransmitter :=
  { capacity := 1024, mask := 1023, maxMsgLength := 128 }

/-- All-zero data area. -/
def zeroMem : Nat → Nat := fun _ => 0

/-- Zeroed region state. -/
def zeroState : TState := { mem := zeroMem, tailIntent := 0, tail := 0, latest := 0 }

/-- Region state whose committed tail is 1000 over a zeroed data area. -/
def s1000 : TState := { mem := zeroMem, tailIntent := 1000, tail := 1000, latest := 0 }

example : alignedLen 16 = 24 := by decide
example : alignedLen 32 = 40 := by decide
example : wrapCase tr1024 1000 32 := by decide
example : ¬ wrapCase tr1024 1000 16 := by decide
example : isPowerOfTwo 1024 = true := by decide
example : isPowerOfTwo 872 = false := by decide

/-- The aligned record length always covers the unaligned record length. -/
theorem le_alignedLen (l : Nat) : l + HEADER_LENGTH ≤ alignedLen l := by
  have h := Nat.div_add_mod (l + HEADER_LENGTH + RECORD_ALIGNMENT - 1) RECORD_ALIGNMENT
  have h2 : (l + HEADER_LENGTH + RECORD_ALIGNMENT - 1) % RECORD_ALIGNMENT < RECORD_ALIGNMENT :=
    Nat.mod_lt _ (by decide)
  simp only [alignedLen, align, HEADER_LENGTH, RECORD_ALIGNMENT] at *
  omega

/-- The aligned record length adds less than one alignment unit. -/
theorem alignedLen_lt (l : Nat) : alignedLen l < l + HEADER_LENGTH + RECORD_ALIGNMENT := by
  have h := Nat.div_add_mod (l + HEADER_LENGTH + RECORD_ALIGNMENT - 1) RECORD_ALIGNMENT
  have h2 : (l + HEADER_LENGTH + RECORD_ALIGNMENT - 1) % RECORD_ALIGNMENT < RECORD_ALIGNMENT :=
    Nat.mod_lt _ (by decide)
  simp only [alignedLen, align, HEADER_LENGTH, RECORD_ALIGNMENT] at *
  omega

/-- The aligned record length is a multiple of the record alignment. -/
theorem alignedLen_mod (l : Nat) : alignedLen l % 8 = 0 := by
  simp only [alignedLen, align, HEADER_LENGTH, RECORD_ALIGNMENT]
  omega

/-- A message within the length limit has aligned record length within the
capacity, for any capacity of at least MIN_CAPACITY. -/
theorem alignedLen_le_capacity (cap l : Nat) (h64 : 64 ≤ cap) (hl : l ≤ cap / 8) :
    alignedLen l ≤ cap := by
  have h := Nat.div_add_mod (l + HEADER_LENGTH + RECORD_ALIGNMENT - 1) RECORD_ALIGNMENT
  have h2 : (l + HEADER_LENGTH + RECORD_ALIGNMENT - 1) % RECORD_ALIGNMENT < RECORD_ALIGNMENT :=
    Nat.mod_lt _ (by decide)
  simp only [alignedLen, align, HEADER_LENGTH, RECORD_ALIGNMENT] at *
  omega

/-- The executable power-of-two test recognises exactly the powers of two. -/
theorem isPowerOfTwo_iff (n : Nat) : isPowerOfTwo n = true ↔ ∃ k, n = 2 ^ k := by
  unfold isPowerOfTwo
  simp only [Bool.and_eq_true, bne_iff_ne, ne_eq, beq_iff_eq]
  constructor
  · rintro ⟨hne, hand⟩
    refine ⟨n.log2, ?_⟩
    have hlo : 2 ^ n.log2 ≤ n := Nat.log2_self_le hne
    have hhi : n < 2 ^ (n.log2 + 1) := Nat.lt_log2_self
    by_contra hne2
    have hr : 2 ^ n.log2 ≤ n - 1 := by omega
    have hbn : n.testBit n.log2 = true := by
      rw [Nat.testBit_to_div_mod]
      have : n / 2 ^ n.log2 = 1 :=
        Nat.div_eq_of_lt_le (by omega) (by rw [pow_succ] at hhi; omega)
      simp [this]
    have hbn1 : (n - 1).testBit n.log2 = true := by
      rw [Nat.testBit_to_div_mod]
      have : (n - 1) / 2 ^ n.log2 = 1 :=
        Nat.div_eq_of_lt_le (by omega) (by rw [pow_succ] at hhi; omega)
      simp [this]
    have hz : (n &&& (n - 1)).testBit n.log2 = false := by
      rw [hand]; exact Nat.zero_testBit _
    rw [Nat.testBit_land, hbn, hbn1] at hz
    simp at hz
  · rintro ⟨k, rfl⟩
    refine ⟨by positivity, ?_⟩
    rw [Nat.and_pow_two_sub_one_eq_mod]
    exact Nat.mod_self _

set_option maxRecDepth 4096 in
/-- A successfully constructed transmitter satisfies the cached-field
constraints. -/
theorem mk_valid (bufferCapacity : Nat) (tr : BroadcastTransmitter)
    (h : mkBroadcastTransmitter bufferCapacity = Except.ok tr) : ValidTransmitter tr := by
  unfold mkBroadcastTransmitter at h
  by_cases hchk : checkCapacity (bufferCapacity - TRAILER_LENGTH) = true
  · rw [if_pos hchk] at h
    unfold checkCapacity at hchk
    simp only [Bool.and_eq_true, decide_eq_true_eq] at hchk
    obtain ⟨hpow, hmin⟩ := hchk
    obtain ⟨k, hk⟩ := (isPowerOfTwo_iff _).mp hpow
    cases h
    exact ⟨⟨k, hk⟩, hmin, rfl, rfl⟩
  · rw [if_neg hchk] at h
    cases h

/-- Every power-of-two capacity of at least MIN_CAPACITY is divisible by
the record alignment. -/
theorem capacity_mod_eight (tr : BroadcastTransmitter) (hv : ValidTransmitter tr) :
    tr.capacity % 8 = 0 := by
  obtain ⟨⟨k, hk⟩, h64, _, _⟩ := hv
  have hk3 : 3 ≤ k := by
    by_contra hlt
    interval_cases k <;> simp [hk, MIN_CAPACITY] at h64
  have : tr.capacity = 8 * 2 ^ (k - 3) := by
    rw [hk, show (8 : Nat) = 2 ^ 3 by decide, ← pow_add]
    congr 1
    omega
  rw [this]
  exact Nat.mul_mod_right _ _

/-- The record offset of a tail position is its remainder by the capacity. -/
theorem recordOffsetOf_eq_mod (tr : BroadcastTransmitter) (t : Nat) (k : Nat)
    (hk : tr.capacity = 2 ^ k) (hmask : tr.mask = tr.capacity - 1) :
    recordOffsetOf tr t = t % tr.capacity := by
  unfold recordOffsetOf
  rw [hmask, hk]
  exact Nat.and_pow_two_sub_one_eq_mod t k

/-- Advancing the tail to the end of the buffer lands on the wrap
boundary: the resulting position has in-buffer offset zero. -/
theorem toEnd_lands_on_boundary (tr : BroadcastTransmitter) (t : Nat) (k : Nat)
    (hk : tr.capacity = 2 ^ k) (hmask : tr.mask = tr.capacity - 1)
    (hpos : 0 < tr.capacity) :
    (t + toEndOf tr t) % tr.capacity = 0 := by
  have hoff : recordOffsetOf tr t = t % tr.capacity := recordOffsetOf_eq_mod tr t k hk hmask
  have hdm := Nat.div_add_mod t tr.capacity
  have hlt : t % tr.capacity < tr.capacity := Nat.mod_lt _ hpos
  have h1 : t + toEndOf tr t = tr.capacity * (t / tr.capacity + 1) := by
    unfold toEndOf
    rw [hoff]
    ring_nf
    omega
  rw [h1]
  exact Nat.mul_mod_right _ _

/-- A successful transmit call passed both checks and its final state is
the fold of its write events. -/
theorem transmit_ok_elim (tr : BroadcastTransmitter) (s : TState) (msgTypeId : Int)
    (payload : List Nat) (s1 : TState)
    (h : transmit tr s msgTypeId payload = (none, s1)) :
    checkMsgTypeId msgTypeId = true ∧ payload.length ≤ tr.maxMsgLength ∧
      s1 = (transmitEvents tr s.tail msgTypeId payload).foldl applyEvent s := by
  unfold transmit at h
  by_cases h1 : checkMsgTypeId msgTypeId = true
  · rw [if_pos h1] at h
    by_cases h2 : checkMessageLength tr payload.length = true
    · rw [if_pos h2] at h
      injection h with ha hb
      unfold checkMessageLength at h2
      exact ⟨h1, of_decide_eq_true h2, hb.symm⟩
    · rw [if_neg h2] at h
      injection h with ha hb
      cases ha
  · rw [if_neg h1] at h
    injection h with ha hb
    cases ha

/-- Counter values after a successful wrap-branch transmit call. -/
theorem transmit_counters_wrap (tr : BroadcastTransmitter) (s : TState) (msgTypeId : Int)
    (payload : List Nat) (s1 : TState)
    (h : transmit tr s msgTypeId payload = (none, s1))
    (hw : wrapCase tr s.tail payload.length) :
    s1.tailIntent = s.tail + alignedLen payload.length + toEndOf tr s.tail ∧
    s1.latest = s.tail + toEndOf tr s.tail ∧
    s1.tail = s.tail + toEndOf tr s.tail + alignedLen payload.length := by
  obtain ⟨-, -, hfold⟩ := transmit_ok_elim tr s msgTypeId payload s1 h
  subst hfold
  unfold transmitEvents
  rw [if_pos hw]
  simp [applyEvent]

/-- Counter values after a successful transmit call that fits before the
wrap. -/
theorem transmit_counters_fit (tr : BroadcastTransmitter) (s : TState) (msgTypeId : Int)
    (payload : List Nat) (s1 : TState)
    (h : transmit tr s msgTypeId payload = (none, s1))
    (hw : ¬ wrapCase tr s.tail payload.length) :
    s1.tailIntent = s.tail + alignedLen payload.length ∧
    s1.latest = s.tail ∧
    s1.tail = s.tail + alignedLen payload.length := by
  obtain ⟨-, -, hfold⟩ := transmit_ok_elim tr s msgTypeId payload s1 h
  subst hfold
  unfold transmitEvents
  rw [if_neg hw]
  simp [applyEvent]

/-- After a successful transmit call the tail advanced by the padding
bytes of the call plus the aligned record length, the tail never
decreased and the tail intent came to rest equal to the tail. -/
theorem transmit_tail_sum (tr : BroadcastTransmitter) (s : TState) (msgTypeId : Int)
    (payload : List Nat) (s1 : TState)
    (h : transmit tr s msgTypeId payload = (none, s1)) :
    s1.tail = s.tail + paddingBytes (transmitRecords tr s.tail msgTypeId payload.length) +
      alignedLen payload.length ∧
    s1.tailIntent = s1.tail ∧ s.tail ≤ s1.tail := by
  by_cases hw : wrapCase tr s.tail payload.length
  · obtain ⟨hti, hl, ht⟩ := transmit_counters_wrap tr s msgTypeId payload s1 h hw
    unfold transmitRecords
    rw [if_pos hw]
    unfold paddingBytes
    simp only [List.filter, List.map, List.sum_cons, List.sum_nil]
    omega
  · obtain ⟨hti, hl, ht⟩ := transmit_counters_fit tr s msgTypeId payload s1 h hw
    unfold transmitRecords
    rw [if_neg hw]
    unfold paddingBytes
    simp only [List.filter, List.map, List.sum_cons, List.sum_nil]
    omega

/-- Inversion of a successful call sequence: the head call succeeded and
the remaining calls ran from its final state. -/
theorem transmitSeq_cons_elim (tr : BroadcastTransmitter) (s : TState) (c : Int × List Nat)
    (cs : List (Int × List Nat)) (results : List (TState × List RecordInfo))
    (h : transmitSeq tr s (c :: cs) = some results) :
    ∃ s1 rest, transmit tr s c.1 c.2 = (none, s1) ∧ transmitSeq tr s1 cs = some rest ∧
      results = (s1, transmitRecords tr s.tail c.1 c.2.length) :: rest := by
  simp only [transmitSeq] at h
  rcases htr : transmit tr s c.1 c.2 with ⟨e, s1⟩
  rw [htr] at h
  cases e with
  | some err => simp at h
  | none =>
    dsimp only at h
    rcases hrest : transmitSeq tr s1 cs with _ | rest
    · rw [hrest] at h
      simp at h
    · rw [hrest] at h
      simp only [Option.some.injEq] at h
      exact ⟨s1, rest, rfl, hrest, h.symm⟩

/-- No record of a single call, padding or user, reaches past the end of
the data area. -/
theorem transmitRecords_fit (tr : BroadcastTransmitter) (hv : ValidTransmitter tr)
    (t : Nat) (msgTypeId : Int) (l : Nat) (hl : l ≤ tr.maxMsgLength) :
    ∀ r ∈ transmitRecords tr t msgTypeId l,
      (r.position &&& tr.mask) + r.storedLength ≤ tr.capacity := by
  obtain ⟨⟨k, hk⟩, h64, hmask, hmax⟩ := hv
  have h64n : 64 ≤ tr.capacity := by
    unfold MIN_CAPACITY at h64
    omega
  have hpos : 0 < tr.capacity := by omega
  have hoff : ∀ u, u &&& tr.mask = u % tr.capacity := fun u => by
    rw [hmask, hk]
    exact Nat.and_pow_two_sub_one_eq_mod u k
  have hmlt : t % tr.capacity < tr.capacity := Nat.mod_lt _ hpos
  have htoEnd : toEndOf tr t = tr.capacity - t % tr.capacity := by
    unfold toEndOf recordOffsetOf
    rw [hoff]
  have hlen : l ≤ tr.capacity / 8 := by rw [hmax] at hl; exact hl
  intro r hr
  unfold transmitRecords at hr
  by_cases hw : wrapCase tr t l
  · rw [if_pos hw] at hr
    simp only [List.mem_cons, List.not_mem_nil, or_false] at hr
    rcases hr with rfl | rfl
    · simp only
      rw [hoff, htoEnd]
      omega
    · simp only
      have hb : (t + toEndOf tr t) &&& tr.mask = 0 := by
        rw [hoff]
        exact toEnd_lands_on_boundary tr t k hk hmask hpos
      rw [hb]
      simp only [HEADER_LENGTH]
      omega
  · rw [if_neg hw] at hr
    simp only [List.mem_cons, List.not_mem_nil, or_false] at hr
    subst hr
    simp only
    unfold wrapCase at hw
    have hfit : alignedLen l ≤ toEndOf tr t := by omega
    have hale := le_alignedLen l
    rw [hoff]
    simp only [HEADER_LENGTH] at *
    omega

/-- The in-buffer offsets of the records of a single call are multiples
of the record alignment whenever the current tail offset is. -/
theorem transmitRecords_aligned (tr : BroadcastTransmitter) (hv : ValidTransmitter tr)
    (t : Nat) (msgTypeId : Int) (l : Nat) (h8 : t % 8 = 0) :
    ∀ r ∈ transmitRecords tr t msgTypeId l, (r.position &&& tr.mask) % 8 = 0 := by
  obtain ⟨⟨k, hk⟩, h64, hmask, hmax⟩ := hv
  have h64n : 64 ≤ tr.capacity := by
    unfold MIN_CAPACITY at h64
    omega
  have hpos : 0 < tr.capacity := by omega
  have hdvd : (8 : Nat) ∣ tr.capacity := by
    have := capacity_mod_eight tr ⟨⟨k, hk⟩, h64, hmask, hmax⟩
    omega
  have hoff : ∀ u, u &&& tr.mask = u % tr.capacity := fun u => by
    rw [hmask, hk]
    exact Nat.and_pow_two_sub_one_eq_mod u k
  have hmm : ∀ u, (u % tr.capacity) % 8 = u % 8 := fun u => Nat.mod_mod_of_dvd u hdvd
  intro r hr
  unfold transmitRecords at hr
  by_cases hw : wrapCase tr t l
  · rw [if_pos hw] at hr
    simp only [List.mem_cons, List.not_mem_nil, or_false] at hr
    rcases hr with rfl | rfl
    · simp only
      rw [hoff, hmm]
      exact h8
    · simp only
      rw [hoff]
      rw [toEnd_lands_on_boundary tr t k hk hmask hpos]
  · rw [if_neg hw] at hr
    simp only [List.mem_cons, List.not_mem_nil, or_false] at hr
    subst hr
    simp only
    rw [hoff, hmm]
    exact h8

/-- A successful transmit call keeps the tail a multiple of the record
alignment. -/
theorem transmit_tail_aligned (tr : BroadcastTransmitter) (hv : ValidTransmitter tr)
    (s : TState) (msgTypeId : Int) (payload : List Nat) (s1 : TState)
    (h : transmit tr s msgTypeId payload = (none, s1)) (h8 : s.tail % 8 = 0) :
    s1.tail % 8 = 0 := by
  obtain ⟨⟨k, hk⟩, h64, hmask, hmax⟩ := hv
  have h64n : 64 ≤ tr.capacity := by
    unfold MIN_CAPACITY at h64
    omega
  have hpos : 0 < tr.capacity := by omega
  have hdvd : tr.capacity % 8 = 0 := capacity_mod_eight tr ⟨⟨k, hk⟩, h64, hmask, hmax⟩
  have hoff : s.tail &&& tr.mask = s.tail % tr.capacity := by
    rw [hmask, hk]
    exact Nat.and_pow_two_sub_one_eq_mod _ k
  have hmm : (s.tail % tr.capacity) % 8 = s.tail % 8 :=
    Nat.mod_mod_of_dvd _ (by omega)
  have hmlt : s.tail % tr.capacity < tr.capacity := Nat.mod_lt _ hpos
  have htoEnd : toEndOf tr s.tail = tr.capacity - s.tail % tr.capacity := by
    unfold toEndOf recordOffsetOf
    rw [hoff]
  have halign := alignedLen_mod payload.length
  by_cases hw : wrapCase tr s.tail payload.length
  · have ht := (transmit_counters_wrap tr s msgTypeId payload s1 h hw).2.2
    rw [ht, htoEnd]
    omega
  · have ht := (transmit_counters_fit tr s msgTypeId payload s1 h hw).2.2
    rw [ht]
    omega

/-- Claim C2: over any sequence of successful transmit calls the tail
read after each call is non-decreasing, and the final tail equals the
initial tail plus the sum of the aligned record lengths of the messages
plus the stored lengths of all padding records inserted. -/
theorem claim_C2 (tr : BroadcastTransmitter) (calls : List (Int × List Nat)) :
    ∀ (s : TState) (results : List (TState × List RecordInfo)),
      transmitSeq tr s calls = some results →
      List.Chain' (fun a b => a ≤ b) (s.tail :: results.map fun r => r.1.tail) ∧
      lastTail s results =
        s.tail + sumAligned calls + (results.map fun r => paddingBytes r.2).sum := by
  induction calls with
  | nil =>
    intro s results h
    simp only [transmitSeq, Option.some.injEq] at h
    subst h
    simp [sumAligned, lastTail]
  | cons c cs ih =>
    intro s results h
    obtain ⟨s1, rest, htr, hrest, rfl⟩ := transmitSeq_cons_elim tr s c cs results h
    obtain ⟨hsum, hieq, hmono⟩ := transmit_tail_sum tr s c.1 c.2 s1 htr
    obtain ⟨ihchain, ihlast⟩ := ih s1 rest hrest
    constructor
    · simp only [List.map_cons]
      rw [List.chain'_cons]
      exact ⟨hmono, ihchain⟩
    · have hstep : lastTail s ((s1, transmitRecords tr s.tail c.1 c.2.length) :: rest) =
          lastTail s1 rest := by
        simp [lastTail, List.foldl_cons]
      rw [hstep, ihlast]
      simp only [sumAligned, List.map_cons, List.sum_cons] at *
      omega

/-- Claim C4: no record committed by any sequence of successful transmit
calls straddles the wrap boundary: in-buffer offset plus stored length
stays within the capacity. -/
theorem claim_C4 (tr : BroadcastTransmitter) (hv : ValidTransmitter tr)
    (calls : List (Int × List Nat)) :
    ∀ (s : TState) (results : List (TState × List RecordInfo)),
      transmitSeq tr s calls = some results →
      ∀ res ∈ results, ∀ r ∈ res.2,
        (r.position &&& tr.mask) + r.storedLength ≤ tr.capacity := by
  induction calls with
  | nil =>
    intro s results h
    simp only [transmitSeq, Option.some.injEq] at h
    subst h
    simp
  | cons c cs ih =>
    intro s results h
    obtain ⟨s1, rest, htr, hrest, rfl⟩ := transmitSeq_cons_elim tr s c cs results h
    obtain ⟨-, hlen, -⟩ := transmit_ok_elim tr s c.1 c.2 s1 htr
    intro res hres
    simp only [List.mem_cons] at hres
    rcases hres with rfl | hres
    · exact transmitRecords_fit tr hv s.tail c.1 c.2.length hlen
    · exact ih s1 rest hrest res hres

/-- The in-buffer offset of a position is a multiple of the record
alignment exactly when the position itself is. -/
theorem offset_aligned_iff (tr : BroadcastTransmitter) (hv : ValidTransmitter tr) (t : Nat) :
    (t &&& tr.mask) % 8 = 0 ↔ t % 8 = 0 := by
  obtain ⟨⟨k, hk⟩, h64, hmask, hmax⟩ := hv
  have hdvd : tr.capacity % 8 = 0 := capacity_mod_eight tr ⟨⟨k, hk⟩, h64, hmask, hmax⟩
  have hoff : t &&& tr.mask = t % tr.capacity := by
    rw [hmask, hk]
    exact Nat.and_pow_two_sub_one_eq_mod _ k
  have hmm : (t % tr.capacity) % 8 = t % 8 := Nat.mod_mod_of_dvd _ (by omega)
  rw [hoff, hmm]

/-- Claim C9: starting from a tail whose in-buffer offset is a multiple
of the record alignment, every record committed by any sequence of
successful transmit calls begins at a position whose in-buffer offset is
a multiple of the record alignment, and the tail stays a multiple of the
record alignment after every call. -/
theorem claim_C9 (tr : BroadcastTransmitter) (hv : ValidTransmitter tr)
    (calls : List (Int × List Nat)) :
    ∀ (s : TState) (results : List (TState × List RecordInfo)),
      (s.tail &&& tr.mask) % RECORD_ALIGNMENT = 0 →
      transmitSeq tr s calls = some results →
      (∀ res ∈ results, ∀ r ∈ res.2,
         (r.position &&& tr.mask) % RECORD_ALIGNMENT = 0) ∧
      (∀ res ∈ results, res.1.tail % RECORD_ALIGNMENT = 0) := by
  induction calls with
  | nil =>
    intro s results h8 h
    simp only [transmitSeq, Option.some.injEq] at h
    subst h
    simp
  | cons c cs ih =>
    intro s results h8 h
    obtain ⟨s1, rest, htr, hrest, rfl⟩ := transmitSeq_cons_elim tr s c cs results h
    simp only [RECORD_ALIGNMENT] at h8
    have ht8 : s.tail % 8 = 0 := (offset_aligned_iff tr hv s.tail).mp h8
    have ht18 : s1.tail % 8 = 0 := transmit_tail_aligned tr hv s c.1 c.2 s1 htr ht8
    have h18 : (s1.tail &&& tr.mask) % RECORD_ALIGNMENT = 0 := by
      simp only [RECORD_ALIGNMENT]
      exact (offset_aligned_iff tr hv s1.tail).mpr ht18
    obtain ⟨ihrec, ihtail⟩ := ih s1 rest h18 hrest
    constructor
    · intro res hres
      simp only [List.mem_cons] at hres
      rcases hres with rfl | hres
      · intro r hr
        simp only [RECORD_ALIGNMENT]
        exact transmitRecords_aligned tr hv s.tail c.1 c.2.length ht8 r hr
      · exact ihrec res hres
    · intro res hres
      simp only [List.mem_cons] at hres
      rcases hres with rfl | hres
      · simp only [RECORD_ALIGNMENT]
        exact ht18
      · exact ihtail res hres

/-- Claim C1: in the wrap branch of a successful transmit call the
padding record is written at the old record offset with stored length
capacity minus the masked tail and type PADDING_MSG_TYPE_ID, the user
record is written at in-buffer offset zero, and the committed tail is
the old tail plus toEndOfBuffer plus the aligned record length. -/
theorem claim_C1 (tr : BroadcastTransmitter) (s : TState) (msgTypeId : Int)
    (payload : List Nat) (s1 : TState) (k : Nat)
    (hk : tr.capacity = 2 ^ k) (hmask : tr.mask = tr.capacity - 1)
    (hpos : 0 < tr.capacity)
    (h : transmit tr s msgTypeId payload = (none, s1))
    (hw : wrapCase tr s.tail payload.length) :
    transmitEvents tr s.tail msgTypeId payload =
      [WriteEvent.storeTailIntent
          (s.tail + alignedLen payload.length + toEndOf tr s.tail),
       WriteEvent.putInt32E (lengthOffset (recordOffsetOf tr s.tail))
          ((tr.capacity - (s.tail &&& tr.mask) : Nat) : Int),
       WriteEvent.putInt32E (typeOffset (recordOffsetOf tr s.tail)) PADDING_MSG_TYPE_ID,
       WriteEvent.putInt32E (lengthOffset 0) ((payload.length + HEADER_LENGTH : Nat) : Int),
       WriteEvent.putInt32E (typeOffset 0) msgTypeId,
       WriteEvent.putBytesE (msgOffset 0) payload,
       WriteEvent.storeLatest (s.tail + toEndOf tr s.tail),
       WriteEvent.storeTail
          (s.tail + toEndOf tr s.tail + alignedLen payload.length)] ∧
    transmitRecords tr s.tail msgTypeId payload.length =
      [{ position := s.tail
         storedLength := tr.capacity - (s.tail &&& tr.mask)
         typeId := PADDING_MSG_TYPE_ID
         padding := true },
       { position := s.tail + toEndOf tr s.tail
         storedLength := payload.length + HEADER_LENGTH
         typeId := msgTypeId
         padding := false }] ∧
    ((s.tail + toEndOf tr s.tail) &&& tr.mask) = 0 ∧
    s1.tail = s.tail + toEndOf tr s.tail + alignedLen payload.length := by
  refine ⟨?_, ?_, ?_, (transmit_counters_wrap tr s msgTypeId payload s1 h hw).2.2⟩
  · unfold transmitEvents
    rw [if_pos hw]
    rfl
  · unfold transmitRecords
    rw [if_pos hw]
    rfl
  · rw [hmask, hk, Nat.and_pow_two_sub_one_eq_mod, ← hk]
    exact toEnd_lands_on_boundary tr s.tail k hk hmask hpos

/-- Claim C3: starting from a state with tail intent at least the tail,
the invariant holds after every prefix of the write events of a
successful transmit call, the final intent is at least the committed
tail, and the tail store strictly follows the tail-intent store. -/
theorem claim_C3 (tr : BroadcastTransmitter) (s : TState) (msgTypeId : Int)
    (payload : List Nat) (s1 : TState)
    (hinv : s.tail ≤ s.tailIntent)
    (h : transmit tr s msgTypeId payload = (none, s1)) :
    (∀ n, (((transmitEvents tr s.tail msgTypeId payload).take n).foldl applyEvent s).tail ≤
          (((transmitEvents tr s.tail msgTypeId payload).take n).foldl applyEvent s).tailIntent) ∧
    s1.tail ≤ s1.tailIntent ∧
    (transmitEvents tr s.tail msgTypeId payload).findIdx isIntentStore <
      (transmitEvents tr s.tail msgTypeId payload).findIdx isTailStore := by
  refine ⟨?_, ?_, ?_⟩
  · intro n
    unfold transmitEvents
    by_cases hw : wrapCase tr s.tail payload.length
    · rw [if_pos hw]
      rcases n with _ | _ | _ | _ | _ | _ | _ | _ | n <;>
        (simp [List.take, applyEvent]; try omega)
    · rw [if_neg hw]
      rcases n with _ | _ | _ | _ | _ | _ | _ | n <;>
        (simp [List.take, applyEvent]; try omega)
  · have := (transmit_tail_sum tr s msgTypeId payload s1 h).2.1
    omega
  · unfold transmitEvents
    by_cases hw : wrapCase tr s.tail payload.length
    · rw [if_pos hw]
      simp [List.findIdx, List.findIdx.go, isIntentStore, isTailStore]
    · rw [if_neg hw]
      simp [List.findIdx, List.findIdx.go, isIntentStore, isTailStore]

/-- Claim C10: after every successful transmit call the tail intent is
exactly equal to the committed tail. -/
theorem claim_C10 (tr : BroadcastTransmitter) (s : TState) (msgTypeId : Int)
    (payload : List Nat) (s1 : TState)
    (h : transmit tr s msgTypeId payload = (none, s1)) :
    s1.tailIntent = s1.tail :=
  (transmit_tail_sum tr s msgTypeId payload s1 h).2.1

/-- Claim C6: a payload longer than maxMsgLength with a valid type id
fails with MessageTooLong and leaves the region state unchanged. -/
theorem claim_C6 (tr : BroadcastTransmitter) (s : TState) (msgTypeId : Int)
    (payload : List Nat) (hid : 1 ≤ msgTypeId)
    (hlen : tr.maxMsgLength < payload.length) :
    transmit tr s msgTypeId payload = (some TransmitError.messageTooLong, s) := by
  have hA : checkMsgTypeId msgTypeId = true := by
    unfold checkMsgTypeId
    simp only [Bool.or_eq_true, decide_eq_true_eq]
    left
    exact hid
  have hB : ¬ (checkMessageLength tr payload.length = true) := by
    unfold checkMessageLength
    simp only [decide_eq_true_eq]
    omega
  unfold transmit
  rw [if_pos hA, if_neg hB]

/-- Claim C7: the type check fails exactly for ids below 1 other than
PADDING_MSG_TYPE_ID; the padding id and every id of at least 1 pass, and
a failing check makes transmit return InvalidArgument with the region
unchanged. -/
theorem claim_C7 (tr : BroadcastTransmitter) (s : TState) (payload : List Nat)
    (msgTypeId : Int) :
    (checkMsgTypeId msgTypeId = false ↔
       msgTypeId < 1 ∧ msgTypeId ≠ PADDING_MSG_TYPE_ID) ∧
    checkMsgTypeId PADDING_MSG_TYPE_ID = true ∧
    (1 ≤ msgTypeId → checkMsgTypeId msgTypeId = true) ∧
    (msgTypeId < 1 → msgTypeId ≠ PADDING_MSG_TYPE_ID →
      transmit tr s msgTypeId payload = (some TransmitError.invalidArgument, s)) := by
  have hiff : checkMsgTypeId msgTypeId = false ↔
      msgTypeId < 1 ∧ msgTypeId ≠ PADDING_MSG_TYPE_ID := by
    unfold checkMsgTypeId PADDING_MSG_TYPE_ID
    simp only [Bool.or_eq_false_iff, decide_eq_false_iff_not, not_le, ne_eq]
  refine ⟨hiff, by decide, ?_, ?_⟩
  · intro hid
    unfold checkMsgTypeId
    simp only [Bool.or_eq_true, decide_eq_true_eq]
    left
    exact hid
  · intro hlt hne
    have hA : ¬ (checkMsgTypeId msgTypeId = true) := by
      rw [Bool.not_eq_true]
      exact hiff.mpr ⟨hlt, hne⟩
    unfold transmit
    rw [if_neg hA]

/-- Claim C8: construction fails with InvalidCapacity exactly when the
data-area capacity (buffer length minus trailer length) is not a power
of two or is below the minimum; a valid capacity yields a transmitter
whose capacity accessor returns N and whose maxMsgLength accessor
returns N divided by 8. -/
theorem claim_C8 (bufferCapacity : Nat) :
    ((¬ ∃ k, bufferCapacity - TRAILER_LENGTH = 2 ^ k) ∨
        bufferCapacity - TRAILER_LENGTH < MIN_CAPACITY →
      mkBroadcastTransmitter bufferCapacity = Except.error CapacityError.invalidCapacity) ∧
    ((∃ k, bufferCapacity - TRAILER_LENGTH = 2 ^ k) →
      MIN_CAPACITY ≤ bufferCapacity - TRAILER_LENGTH →
      ∃ tr, mkBroadcastTransmitter bufferCapacity = Except.ok tr ∧
        tr.capacity = bufferCapacity - TRAILER_LENGTH ∧
        tr.maxMsgLength = (bufferCapacity - TRAILER_LENGTH) / 8) := by
  constructor
  · intro hbad
    have hchk : ¬ (checkCapacity (bufferCapacity - TRAILER_LENGTH) = true) := by
      intro hchk
      unfold checkCapacity at hchk
      simp only [Bool.and_eq_true, decide_eq_true_eq] at hchk
      obtain ⟨hp, hm⟩ := hchk
      rcases hbad with hnp | hlt
      · exact hnp ((isPowerOfTwo_iff _).mp hp)
      · omega
    unfold mkBroadcastTransmitter
    rw [if_neg hchk]
  · intro hpow hmin
    have hchk : checkCapacity (bufferCapacity - TRAILER_LENGTH) = true := by
      unfold checkCapacity
      simp only [Bool.and_eq_true, decide_eq_true_eq]
      exact ⟨(isPowerOfTwo_iff _).mpr hpow, hmin⟩
    refine ⟨{ capacity := bufferCapacity - TRAILER_LENGTH
              mask := bufferCapacity - TRAILER_LENGTH - 1
              maxMsgLength := calculateMaxMessageLength (bufferCapacity - TRAILER_LENGTH) },
            ?_, rfl, rfl⟩
    unfold mkBroadcastTransmitter
    rw [if_pos hchk]

/-- Claim C5: over a zeroed region of data-area capacity 1024, one
transmit of type 7 with a 16-byte payload of 0xAA bytes leaves
TAIL_INTENT = TAIL = 24 and LATEST = 0, and the record at offset 0 has
stored length 24, type 7 and the 16 source bytes as payload. -/
theorem claim_C5 :
    mkBroadcastTransmitter 1152 = Except.ok tr1024 ∧
    (transmit tr1024 zeroState 7 (List.replicate 16 170)).1 = none ∧
    (transmit tr1024 zeroState 7 (List.replicate 16 170)).2.tailIntent = 24 ∧
    (transmit tr1024 zeroState 7 (List.replicate 16 170)).2.tail = 24 ∧
    (transmit tr1024 zeroState 7 (List.replicate 16 170)).2.latest = 0 ∧
    getInt32 (transmit tr1024 zeroState 7 (List.replicate 16 170)).2.mem 0 = 24 ∧
    getInt32 (transmit tr1024 zeroState 7 (List.replicate 16 170)).2.mem 4 = 7 ∧
    (∀ i, i < 16 →
      (transmit tr1024 zeroState 7 (List.replicate 16 170)).2.mem (8 + i) = 170) := by
  refine ⟨rfl, ?_, ?_, ?_, ?_, ?_, ?_, ?_⟩ <;> decide

/-- The concrete transmitter satisfies the cached-field constraints. -/
theorem validTr1024 : ValidTransmitter tr1024 := ⟨⟨10, rfl⟩, by decide, rfl, rfl⟩

/-- A two-call demonstration sequence: one message that fits, then one
that wraps. -/
def demoCalls : List (Int × List Nat) :=
  [(7, List.replicate 16 170), (1, List.replicate 32 170)]

/-- Witness for claim C1 at the S4 scenario: capacity 1024, tail 1000,
type 1, 32-byte payload. -/
theorem claim_C1_witness :
    wrapCase tr1024 1000 32 ∧
    transmitRecords tr1024 1000 1 32 =
      [{ position := 1000, storedLength := 24, typeId := -1, padding := true },
       { position := 1024, storedLength := 40, typeId := 1, padding := false }] ∧
    ((1000 + toEndOf tr1024 1000) &&& tr1024.mask) = 0 ∧
    (transmit tr1024 s1000 1 (List.replicate 32 170)).2.tail = 1064 ∧
    (transmit tr1024 s1000 1 (List.replicate 32 170)).2.tailIntent = 1064 ∧
    (transmit tr1024 s1000 1 (List.replicate 32 170)).2.latest = 1024 ∧
    getInt32 (transmit tr1024 s1000 1 (List.replicate 32 170)).2.mem 1000 = 24 ∧
    getInt32 (transmit tr1024 s1000 1 (List.replicate 32 170)).2.mem 1004 = -1 ∧
    getInt32 (transmit tr1024 s1000 1 (List.replicate 32 170)).2.mem 0 = 40 ∧
    getInt32 (transmit tr1024 s1000 1 (List.replicate 32 170)).2.mem 4 = 1 := by
  have h : transmit tr1024 s1000 1 (List.replicate 32 170) =
      (none, (transmit tr1024 s1000 1 (List.replicate 32 170)).2) := rfl
  have main := claim_C1 tr1024 s1000 1 (List.replicate 32 170)
      (transmit tr1024 s1000 1 (List.replicate 32 170)).2 10 rfl rfl (by decide) h (by decide)
  exact ⟨by decide, main.2.1, main.2.2.1, main.2.2.2, by decide, by decide,
    by decide, by decide, by decide, by decide⟩

/-- Witness for claim C2 on a concrete two-call sequence. -/
theorem claim_C2_witness :
    ∃ results, transmitSeq tr1024 s1000 demoCalls = some results ∧
      (List.Chain' (fun a b => a ≤ b) (s1000.tail :: results.map fun r => r.1.tail) ∧
       lastTail s1000 results =
         s1000.tail + sumAligned demoCalls + (results.map fun r => paddingBytes r.2).sum) := by
  have h : transmitSeq tr1024 s1000 demoCalls =
      some ((transmitSeq tr1024 s1000 demoCalls).getD []) := rfl
  exact ⟨_, h, claim_C2 tr1024 demoCalls s1000 _ h⟩

/-- Witness for claim C3 at the S4 scenario. -/
theorem claim_C3_witness :
    (((transmitEvents tr1024 s1000.tail 1 (List.replicate 32 170)).take 1).foldl
        applyEvent s1000).tail ≤
      (((transmitEvents tr1024 s1000.tail 1 (List.replicate 32 170)).take 1).foldl
        applyEvent s1000).tailIntent ∧
    (transmit tr1024 s1000 1 (List.replicate 32 170)).2.tail ≤
      (transmit tr1024 s1000 1 (List.replicate 32 170)).2.tailIntent ∧
    (transmitEvents tr1024 s1000.tail 1 (List.replicate 32 170)).findIdx isIntentStore <
      (transmitEvents tr1024 s1000.tail 1 (List.replicate 32 170)).findIdx isTailStore := by
  have h : transmit tr1024 s1000 1 (List.replicate 32 170) =
      (none, (transmit tr1024 s1000 1 (List.replicate 32 170)).2) := rfl
  have main := claim_C3 tr1024 s1000 1 (List.replicate 32 170)
      (transmit tr1024 s1000 1 (List.replicate 32 170)).2 (by decide) h
  exact ⟨main.1 1, main.2.1, main.2.2⟩

/-- Witness for claim C4 on a concrete two-call sequence. -/
theorem claim_C4_witness :
    ∃ results, transmitSeq tr1024 s1000 demoCalls = some results ∧
      ∀ res ∈ results, ∀ r ∈ res.2,
        (r.position &&& tr1024.mask) + r.storedLength ≤ tr1024.capacity := by
  have h : transmitSeq tr1024 s1000 demoCalls =
      some ((transmitSeq tr1024 s1000 demoCalls).getD []) := rfl
  exact ⟨_, h, claim_C4 tr1024 validTr1024 demoCalls s1000 _ h⟩

set_option maxRecDepth 4096 in
/-- Witness for claim C6: payload of 129 bytes against a limit of 128. -/
theorem claim_C6_witness :
    transmit tr1024 zeroState 1 (List.replicate 129 0) =
      (some TransmitError.messageTooLong, zeroState) :=
  claim_C6 tr1024 zeroState 1 (List.replicate 129 0) (by decide) (by decide)

/-- Witness for claim C7: the padding id passes the check and the id 0 is
rejected with the region unchanged. -/
theorem claim_C7_witness :
    checkMsgTypeId PADDING_MSG_TYPE_ID = true ∧
    transmit tr1024 zeroState 0 [] = (some TransmitError.invalidArgument, zeroState) :=
  ⟨(claim_C7 tr1024 zeroState [] 0).2.1,
   (claim_C7 tr1024 zeroState [] 0).2.2.2 (by decide) (by decide)⟩

/-- Witness for claim C8: buffer length 1000 gives the non-power-of-two
data-area capacity 872 and fails, buffer length 1152 gives capacity 1024
and succeeds with maxMsgLength 128. -/
theorem claim_C8_witness :
    mkBroadcastTransmitter 1000 = Except.error CapacityError.invalidCapacity ∧
    ∃ tr, mkBroadcastTransmitter 1152 = Except.ok tr ∧
      tr.capacity = 1024 ∧ tr.maxMsgLength = 128 := by
  constructor
  · refine (claim_C8 1000).1 (Or.inl ?_)
    intro hex
    have hpow := (isPowerOfTwo_iff (1000 - TRAILER_LENGTH)).mpr hex
    have hfalse : isPowerOfTwo (1000 - TRAILER_LENGTH) = false := by decide
    rw [hfalse] at hpow
    cases hpow
  · exact (claim_C8 1152).2 ⟨10, rfl⟩ (by decide)

/-- Witness for claim C9 on a concrete two-call sequence starting from
tail 1000. -/
theorem claim_C9_witness :
    ∃ results, transmitSeq tr1024 s1000 demoCalls = some results ∧
      ((∀ res ∈ results, ∀ r ∈ res.2,
          (r.position &&& tr1024.mask) % RECORD_ALIGNMENT = 0) ∧
       (∀ res ∈ results, res.1.tail % RECORD_ALIGNMENT = 0)) := by
  have h : transmitSeq tr1024 s1000 demoCalls =
      some ((transmitSeq tr1024 s1000 demoCalls).getD []) := rfl
  exact ⟨_, h, claim_C9 tr1024 validTr1024 demoCalls s1000 _ (by decide) h⟩

/-- Witness for claim C10 at the S1 scenario. -/
theorem claim_C10_witness :
    (transmit tr1024 zeroState 7 (List.replicate 16 170)).2.tailIntent =
      (transmit tr1024 zeroState 7 (List.replicate 16 170)).2.tail := by
  have h : transmit tr1024 zeroState 7 (List.replicate 16 170) =
      (none, (transmit tr1024 zeroState 7 (List.replicate 16 170)).2) := rfl
  exact claim_C10 tr1024 zeroState 7 (List.replicate 16 170) _ h
